import Mathlib

/-!
# Verification of the website-log-insights ingestion-and-aggregation engine

A shallow embedding of the core of the `website-log-insights` repository:

* `parser.ts` — log-line parsing (`parseLogLine`, `parseLogFile`), the
  nginx timestamp normalizer (`parseNginxTimestamp`) and the bot
  classifier (`isBot`);
* `database.ts` — the persisted store (`hosts` and `log_entries` tables),
  `getOrCreateHost`, `insertLogEntries` and the aggregation queries;
* `analyzer.ts` — `loadLogFile` and `calculateSummary`.

Strings are Lean `String`s, epoch instants are `Int` milliseconds, and the
SQLite store is a record of lists of rows.  JavaScript's `new Date(y, m, d,
h, mi, s)` constructor interprets its arguments in the host machine's local
timezone, so the embedding of `parseNginxTimestamp` carries the host UTC
offset (`hostTZmin`, minutes east of UTC, taken as a fixed offset) as an
explicit parameter.
-/

namespace LogInsights

/-! ## JavaScript primitives: whitespace, trim, digits -/

/-- The character class `\s` of JavaScript regular expressions (also the set
trimmed by `String.prototype.trim`): ASCII whitespace plus the Unicode space
separators, LS, PS, NBSP and the BOM. -/
def jsSpace (c : Char) : Bool :=
  c = ' ' || c = '\t' || c = '\n' || c = '\r' || c.toNat = 11 || c.toNat = 12 ||
  c.toNat = 0xa0 || c.toNat = 0x1680 || (0x2000 ≤ c.toNat && c.toNat ≤ 0x200a) ||
  c.toNat = 0x2028 || c.toNat = 0x2029 || c.toNat = 0x202f || c.toNat = 0x205f ||
  c.toNat = 0x3000 || c.toNat = 0xfeff

/-- `String.prototype.trim` on the character list: drop `\s` characters from
both ends. -/
def trimJS (l : List Char) : List Char :=
  ((l.dropWhile jsSpace).reverse.dropWhile jsSpace).reverse

/-- Numeric value of a decimal digit character. -/
def dval (c : Char) : Int := (c.toNat : Int) - 48

/-- Value of a two-digit group, as captured by `(\d{2})` and `parseInt`. -/
def d2v (a b : Char) : Int := dval a * 10 + dval b

/-- Value of a four-digit group, as captured by `(\d{4})` and `parseInt`. -/
def d4v (a b c d : Char) : Int := ((dval a * 10 + dval b) * 10 + dval c) * 10 + dval d

/-- `parseInt(s, 10)` on a string of decimal digits. -/
def natDigits (l : List Char) : Nat := l.foldl (fun acc c => acc * 10 + (c.toNat - 48)) 0

/-- The character class `\w` of JavaScript regular expressions. -/
def wordChar (c : Char) : Bool := c.isAlpha || c.isDigit || c = '_'

/-! ## Calendar arithmetic of the ECMAScript `Date` object -/

/-- The ECMAScript `Date(year, …)` constructor maps year arguments 0–99 to
1900–1999. -/
def jsYear (y : Int) : Int := if 0 ≤ y ∧ y ≤ 99 then 1900 + y else y

/-- Day number (days since 1970-01-01) of the proleptic Gregorian date with
0-based month `m0` (0–11, as passed to the JS `Date` constructor) and
day-of-month `d` (arbitrary: out-of-range days roll over, as in `MakeDay`).
`Int.ediv` is floor division for positive divisors, which agrees with the
C-style truncating division on the nonnegative intermediate values arising
here. -/
def daysFromCivil (y : Int) (m0 : Int) (d : Int) : Int :=
  let m := m0 + 1
  let yAdj := if m ≤ 2 then y - 1 else y
  let era := yAdj.ediv 400
  let yoe := yAdj - era * 400
  let doy := (153 * (if 2 < m then m - 3 else m + 9) + 2).ediv 5 + d - 1
  let doe := yoe * 365 + yoe.ediv 4 - yoe.ediv 100 + doy
  era * 146097 + doe - 719468

/-- Epoch milliseconds of the given calendar fields read as UTC (`MakeDate` of
`MakeDay` and `MakeTime`; out-of-range time fields simply add up). -/
def epochOfFieldsUTC (y m0 d h mi s : Int) : Int :=
  daysFromCivil y m0 d * 86400000 + h * 3600000 + mi * 60000 + s * 1000

/-- Inverse of `daysFromCivil`: the proleptic Gregorian date (year,
1-based month, day) of a day number. -/
def civilFromDays (z0 : Int) : Int × Int × Int :=
  let z := z0 + 719468
  let era := z.ediv 146097
  let doe := z - era * 146097
  let yoe := (doe - doe.ediv 1460 + doe.ediv 36524 - doe.ediv 146096).ediv 365
  let y := yoe + era * 400
  let doy := doe - (365 * yoe + yoe.ediv 4 - yoe.ediv 100)
  let mp := (5 * doy + 2).ediv 153
  let d := doy - (153 * mp + 2).ediv 5 + 1
  let m := mp + (if mp < 10 then 3 else -9)
  (if m ≤ 2 then y + 1 else y, m, d)

/-- Left-pad the decimal rendering of `0 ≤ n < 100` to two digits. -/
def pad2 (n : Int) : String := if n < 10 then "0" ++ toString n else toString n

/-- Left-pad the decimal rendering of `0 ≤ n < 10000` to four digits. -/
def pad4 (n : Int) : String :=
  if n < 10 then "000" ++ toString n
  else if n < 100 then "00" ++ toString n
  else if n < 1000 then "0" ++ toString n
  else toString n

/-- Left-pad the decimal rendering of `0 ≤ n < 1000000` to six digits. -/
def pad6 (n : Int) : String :=
  if n < 10000 then "00" ++ pad4 n
  else if n < 100000 then "0" ++ toString n
  else toString n

/-- The `YYYY-MM-DD` prefix of `Date.prototype.toISOString()` for the UTC
instant `ms` — the value stored in the `date_only` column
(`entry.timestamp.toISOString().split('T')[0]`): the UTC calendar date,
with the expanded-year forms for years outside 0–9999. -/
def dateOnly (ms : Int) : String :=
  let c := civilFromDays (ms.ediv 86400000)
  let ys := if 0 ≤ c.1 ∧ c.1 ≤ 9999 then pad4 c.1
            else if c.1 < 0 then "-" ++ pad6 (-c.1) else "+" ++ pad6 c.1
  ys ++ "-" ++ pad2 c.2.1 ++ "-" ++ pad2 c.2.2

/-! ## The timestamp normalizer (`parseNginxTimestamp`, parser.ts) -/

/-- The `months` lookup table of `parseNginxTimestamp` (0-based month). -/
def monthIndex (m : String) : Option Int :=
  if m = "Jan" then some 0 else if m = "Feb" then some 1 else if m = "Mar" then some 2
  else if m = "Apr" then some 3 else if m = "May" then some 4 else if m = "Jun" then some 5
  else if m = "Jul" then some 6 else if m = "Aug" then some 7 else if m = "Sep" then some 8
  else if m = "Oct" then some 9 else if m = "Nov" then some 10 else if m = "Dec" then some 11
  else none

/-- Embedding of `parseNginxTimestamp` (parser.ts).  The anchored pattern
`^(\d{2})\/(\w{3})\/(\d{4}):(\d{2}):(\d{2}):(\d{2}) ([+-]\d{4})$` forces a
26-character shape, matched here position by position.  The source builds
`new Date(year, month, day, hour, minute, second)` — the *host-local*
constructor — and then adds the negated zone offset; `hostTZmin` is the host
machine's fixed UTC offset in minutes (east positive), so the host-local
constructor's result is the UTC field interpretation shifted by
`-hostTZmin` minutes. -/
def parseNginxTimestamp (hostTZmin : Int) (s : String) : Option Int :=
  match s.data with
  | [a1, a2, '/', b1, b2, b3, '/', c1, c2, c3, c4, ':', e1, e2, ':',
     f1, f2, ':', g1, g2, ' ', sg, o1, o2, o3, o4] =>
    if a1.isDigit && a2.isDigit && wordChar b1 && wordChar b2 && wordChar b3 &&
       c1.isDigit && c2.isDigit && c3.isDigit && c4.isDigit &&
       e1.isDigit && e2.isDigit && f1.isDigit && f2.isDigit &&
       g1.isDigit && g2.isDigit && (sg = '+' || sg = '-') &&
       o1.isDigit && o2.isDigit && o3.isDigit && o4.isDigit then
      match monthIndex (String.mk [b1, b2, b3]) with
      | none => none
      | some month =>
        let offsetMilliseconds := (d2v o1 o2 * 60 + d2v o3 o4) * 60000 *
          (if sg = '+' then -1 else 1)
        let localMs := epochOfFieldsUTC (jsYear (d4v c1 c2 c3 c4)) month (d2v a1 a2)
          (d2v e1 e2) (d2v f1 f2) (d2v g1 g2) - hostTZmin * 60000
        some (localMs + offsetMilliseconds)
    else none
  | _ => none

/-! ## The bot classifier (`isBot`, parser.ts) -/

/-- `true` iff `pat` occurs as a contiguous sublist of the argument. -/
def hasSub (pat : List Char) : List Char → Bool
  | [] => pat.isEmpty
  | c :: cs => pat.isPrefixOf (c :: cs) || hasSub pat cs

/-- The patterns of `isBot`, each a `/…/i` regex whose body is a literal, so a
case-insensitive substring test. -/
def botPatterns : List String :=
  ["bot", "crawler", "spider", "scraper", "googlebot", "bingbot", "slurp",
   "duckduckbot", "baiduspider", "yandexbot", "facebookexternalhit", "twitterbot",
   "linkedinbot", "whatsapp", "telegrambot", "curl", "wget", "python-requests",
   "go-http-client", "java", "apache-httpclient", "okhttp", "postman", "zapier",
   "monitor", "check", "test", "scan", "probe", "lighthouse", "pagespeed",
   "gtmetrix", "pingdom", "uptimerobot", "newrelic"]

/-- Case-insensitive substring test: `/pat/i.test(ua)` for a literal `pat`. -/
def testsCI (pat : String) (ua : String) : Bool :=
  hasSub (pat.data.map Char.toLower) (ua.data.map Char.toLower)

/-- Embedding of `isBot` (parser.ts): true iff any pattern matches. -/
def isBot (userAgent : String) : Bool :=
  botPatterns.any (fun p => testsCI p userAgent)

/-! ## The log-line matcher (`NGINX_LOG_REGEX`, parser.ts)

The source matches each line against the backtracking regex

```
^(\S+) \S+ \S+ \[([^\]]+)\] "(\S+) ([^"]*) (\S+)" (\d+) (\d+|-)
  "([^"]*)" "([^"]*)"(?:\s+"([^"]*)")?
```

Most pieces are a greedy character-class run followed by a literal the class
excludes, for which the greedy longest split is the only one a backtracking
matcher can take (`classThenChar`).  The quoted request field
`([^"]*) (\S+)"` genuinely backtracks — `\S` matches `"` — so those two
runs are enumerated longest-first with the whole remainder of the pattern as
continuation, which is exactly the leftmost-greedy priority of the regex. -/

/-- Consume a single expected literal character. -/
def expectChar (c : Char) : List Char → Option (List Char)
  | x :: xs => if x = c then some xs else none
  | [] => none

/-- Greedy run of `p`-characters of length ≥ `lo` followed by the literal `c`,
for a class with `p c = false`: any split shorter than the maximal run is
followed by a `p`-character, which is then not `c`, so only the maximal run
can succeed.  Returns the run and the input after `c`. -/
def classThenChar (p : Char → Bool) (lo : Nat) (c : Char) (l : List Char) :
    Option (List Char × List Char) :=
  let run := l.takeWhile p
  if lo ≤ run.length then
    match expectChar c (l.dropWhile p) with
    | some rest => some (run, rest)
    | none => none
  else none

/-- All decompositions offered by a greedy `p`-run of length ≥ `lo`: prefixes
of the maximal run, longest first (the order a backtracking greedy quantifier
tries them in). -/
def greedySplits (p : Char → Bool) (lo : Nat) (l : List Char) :
    List (List Char × List Char) :=
  let run := l.takeWhile p
  let rest := l.dropWhile p
  (List.range (run.length + 1)).reverse.filterMap (fun i =>
    if lo ≤ i then some (run.take i, run.drop i ++ rest) else none)

/-- First success of `f` over a list of candidates. -/
def firstSome (f : α → Option β) : List α → Option β
  | [] => none
  | a :: as' => match f a with
    | some b => some b
    | none => firstSome f as'

/-- The character class `\S`. -/
def nonSpace (c : Char) : Bool := !(jsSpace c)

/-- The ten capture groups of `NGINX_LOG_REGEX` (group 10 optional). -/
structure RawMatch where
  ip : List Char
  ts : List Char
  method : List Char
  url : List Char
  protocol : List Char
  status : List Char
  size : List Char
  referrer : List Char
  userAgent : List Char
  fwd : Option (List Char)
deriving Repr, DecidableEq

/-- The tail of the pattern after the closing `" ` of the request field:
`(\d+) (\d+|-) "([^"]*)" "([^"]*)"(?:\s+"([^"]*)")?` (no end anchor). -/
def matchTail (l : List Char) :
    Option (List Char × List Char × List Char × List Char × Option (List Char)) :=
  match classThenChar Char.isDigit 1 ' ' l with
  | none => none
  | some (status, l1) =>
    let sizeOpt : Option (List Char × List Char) :=
      match classThenChar Char.isDigit 1 ' ' l1 with
      | some r => some r
      | none => match l1 with
        | '-' :: ' ' :: rest => some (['-'], rest)
        | _ => none
    match sizeOpt with
    | none => none
    | some (size, l2) =>
      match expectChar '"' l2 with
      | none => none
      | some l3 =>
        match classThenChar (fun c => !(c = '"')) 0 '"' l3 with
        | none => none
        | some (referrer, l4) =>
          match expectChar ' ' l4 with
          | none => none
          | some l5 =>
            match expectChar '"' l5 with
            | none => none
            | some l6 =>
              match classThenChar (fun c => !(c = '"')) 0 '"' l6 with
              | none => none
              | some (userAgent, l7) =>
                let fwd : Option (List Char) :=
                  match classThenChar jsSpace 1 '"' l7 with
                  | some (_, r1) =>
                    match classThenChar (fun c => !(c = '"')) 0 '"' r1 with
                    | some (f, _) => some f
                    | none => none
                  | none => none
                some (status, size, referrer, userAgent, fwd)

/-- Embedding of a successful `trimmedLine.match(NGINX_LOG_REGEX)`. -/
def matchNginx (l : List Char) : Option RawMatch :=
  match classThenChar nonSpace 1 ' ' l with
  | none => none
  | some (ip, l1) =>
    match classThenChar nonSpace 1 ' ' l1 with
    | none => none
    | some (_, l2) =>
      match classThenChar nonSpace 1 ' ' l2 with
      | none => none
      | some (_, l3) =>
        match expectChar '[' l3 with
        | none => none
        | some l4 =>
          match classThenChar (fun c => !(c = ']')) 1 ']' l4 with
          | none => none
          | some (ts, l5) =>
            match expectChar ' ' l5 with
            | none => none
            | some l6 =>
              match expectChar '"' l6 with
              | none => none
              | some l7 =>
                match classThenChar nonSpace 1 ' ' l7 with
                | none => none
                | some (method, l8) =>
                  firstSome (fun uc =>
                    match expectChar ' ' uc.2 with
                    | none => none
                    | some r2 =>
                      firstSome (fun pc =>
                        match expectChar '"' pc.2 with
                        | none => none
                        | some r4 =>
                          match expectChar ' ' r4 with
                          | none => none
                          | some r5 =>
                            match matchTail r5 with
                            | none => none
                            | some (status, size, referrer, userAgent, fwd) =>
                              some { ip := ip, ts := ts, method := method,
                                     url := uc.1, protocol := pc.1,
                                     status := status, size := size,
                                     referrer := referrer,
                                     userAgent := userAgent, fwd := fwd })
                        (greedySplits nonSpace 1 r2))
                    (greedySplits (fun c => !(c = '"')) 0 l8)

/-! ## `parseLogLine` and `parseLogFile` (parser.ts) -/

/-- A parsed log entry (`LogEntry`, types.ts, as produced by `parseLogLine`);
`timestamp` is the epoch-millisecond value of the parsed `Date`. -/
structure LogEntry where
  ip : String
  timestamp : Int
  method : String
  url : String
  protocol : String
  statusCode : Int
  responseSize : Int
  referrer : String
  userAgent : String
  forwardedFor : Option String
deriving Repr, DecidableEq

/-- Embedding of `parseLogLine` (parser.ts).  Blank lines and non-matching
lines yield `none`; a size field of `-` is zero; a referrer of `-` becomes
the empty string; an absent or empty forwarded-for group becomes `none`
(`forwardedFor || undefined`).  The `isNaN` guard never fires: the regex
guarantees the numeric fields are digit runs (or `-` for the size). -/
def parseLogLine (hostTZmin : Int) (line : String) : Option LogEntry :=
  let t := trimJS line.data
  if t.isEmpty then none
  else
    match matchNginx t with
    | none => none
    | some m =>
      match parseNginxTimestamp hostTZmin (String.mk m.ts) with
      | none => none
      | some tsMs =>
        some { ip := String.mk m.ip
               timestamp := tsMs
               method := String.mk m.method
               url := String.mk m.url
               protocol := String.mk m.protocol
               statusCode := (natDigits m.status : Int)
               responseSize := if m.size = ['-'] then 0 else (natDigits m.size : Int)
               referrer := if m.referrer = ['-'] then "" else String.mk m.referrer
               userAgent := String.mk m.userAgent
               forwardedFor := match m.fwd with
                 | some f => if f.isEmpty then none else some (String.mk f)
                 | none => none }

/-- `content.split('\n')` on the character list: the (possibly empty)
segments between newline characters; the empty string splits to one empty
segment. -/
def splitNl : List Char → List (List Char)
  | [] => [[]]
  | c :: cs =>
    let r := splitNl cs
    if c = '\n' then [] :: r
    else match r with
      | h :: t => (c :: h) :: t
      | [] => [[c]]

/-- Embedding of `parseLogFile` (parser.ts): split the content on `'\n'`,
skip blank lines, parse the rest, and keep the successes in order. -/
def parseLogFile (hostTZmin : Int) (content : String) : List LogEntry :=
  (splitNl content.data).foldr
    (fun line acc =>
      if (trimJS line).isEmpty then acc
      else match parseLogLine hostTZmin (String.mk line) with
        | some e => e :: acc
        | none => acc)
    []

/-! ## The persisted store (`database.ts`) -/

/-- A row of the `hosts` table. -/
structure HostRow where
  id : Nat
  hostname : String
  created_at : Int
  updated_at : Int
deriving Repr, DecidableEq

/-- A row of the `log_entries` table (the surrogate `id` column and the
`AUTOINCREMENT` bookkeeping for entries play no role in any query and are
omitted). -/
structure EntryRow where
  host_id : Nat
  ip : String
  timestamp : Int
  method : String
  url : String
  protocol : String
  status_code : Int
  response_size : Int
  referrer : String
  user_agent : String
  forwarded_for : Option String
  is_bot : Bool
  date_only : String
deriving Repr, DecidableEq

/-- The persisted SQLite state: the `hosts` and `log_entries` tables (rows in
insertion order) and the next `AUTOINCREMENT` rowid of `hosts`.  The
audit-only `file_metadata` table is never written by the ingestion path and
is omitted. -/
structure DBState where
  hosts : List HostRow
  entries : List EntryRow
  nextHostId : Nat
deriving Repr, DecidableEq

/-- The freshly initialized database. -/
def initialState : DBState := { hosts := [], entries := [], nextHostId := 1 }

/-- Embedding of `getOrCreateHost` (database.ts): find the host row by
hostname; if found, set its `updated_at` to `now` and return its id;
otherwise insert a new row with `created_at = updated_at = now` and return
the fresh rowid.  `now` is the `Date.now()` reading at the call. -/
def getOrCreateHost (st : DBState) (hostname : String) (now : Int) : Nat × DBState :=
  match st.hosts.find? (fun r => r.hostname == hostname) with
  | some h =>
    (h.id, { st with hosts := st.hosts.map (fun r =>
      if r.id = h.id then { r with updated_at := now } else r) })
  | none =>
    (st.nextHostId,
     { st with
       hosts := st.hosts ++ [{ id := st.nextHostId, hostname := hostname,
                               created_at := now, updated_at := now }],
       nextHostId := st.nextHostId + 1 })

/-- The `log_entries` row built for one entry inside `insertLogEntries`:
`timestamp` is `getTime()`, `date_only` the ISO date prefix, and `is_bot`
the classifier's output at insert time. -/
def entryToRow (hostId : Nat) (e : LogEntry) : EntryRow :=
  { host_id := hostId
    ip := e.ip
    timestamp := e.timestamp
    method := e.method
    url := e.url
    protocol := e.protocol
    status_code := e.statusCode
    response_size := e.responseSize
    referrer := e.referrer
    user_agent := e.userAgent
    forwarded_for := e.forwardedFor
    is_bot := isBot e.userAgent
    date_only := dateOnly e.timestamp }

/-- Embedding of `insertLogEntries` (database.ts) on the success path:
`getOrCreateHost` runs first, then the transaction inserts one row per
entry. -/
def insertLogEntries (st : DBState) (entries : List LogEntry) (hostname : String)
    (now : Int) : DBState :=
  let r := getOrCreateHost st hostname now
  { r.2 with entries := r.2.entries ++ entries.map (entryToRow r.1) }

/-- Embedding of `insertLogEntries` when the storage engine raises at the
`k`-th `stmt.run` inside the transaction (`failAt = some k`): the
`better-sqlite3` transaction wrapper rolls the entry inserts back, but
`getOrCreateHost` ran *before* the transaction and its effect is already
committed.  Returns whether the call succeeded and the persisted state after
the call. -/
def insertLogEntriesWithFailure (st : DBState) (entries : List LogEntry)
    (hostname : String) (now : Int) (failAt : Option Nat) : Bool × DBState :=
  let r := getOrCreateHost st hostname now
  match failAt with
  | some _ => (false, r.2)
  | none => (true, { r.2 with entries := r.2.entries ++ entries.map (entryToRow r.1) })

/-! ## `loadLogFile` (analyzer.ts) -/

/-- The failure conditions of a load (error-handling taxonomy of the design). -/
inductive LoadError where
  | fileNotFound
  | invalidHost
  | emptyResult
deriving Repr, DecidableEq

/-- Embedding of `loadLogFile` (analyzer.ts).  The filesystem is a map from
paths to contents (`none` = the file does not exist).  The source checks
`existsSync` first, then the hostname, then parses and rejects an empty
result; all three `throw`s happen before any database statement runs, so on
failure the returned state is the input state.  Returns the outcome and the
persisted state after the call. -/
def loadLogFile (hostTZmin : Int) (fs : String → Option String) (st : DBState)
    (filePath hostname : String) (now : Int) : Except LoadError Unit × DBState :=
  match fs filePath with
  | none => (.error .fileNotFound, st)
  | some content =>
    if (trimJS hostname.data).isEmpty then (.error .invalidHost, st)
    else
      let entries := parseLogFile hostTZmin content
      if entries.isEmpty then (.error .emptyResult, st)
      else (.ok (), insertLogEntries st entries hostname now)

/-! ## The aggregation query engine (database.ts)

Every windowed query computes `subDays(now, n).getTime()` for n = 1, 7, 30
and counts rows with `timestamp >= cutoff`.  `subDays` steps the local
calendar day; it is modelled as exact 24-hour steps (`now − n·86400000` ms),
which preserves the one property the queries rely on: the three cutoffs are
monotone in `n`.  A SQL `GROUP BY k` is modelled as one output row per
element of the deduplicated key list, with each aggregate a count/sum over
the rows having that key; `ORDER BY … DESC LIMIT n` is a sort
followed by `take`. -/

/-- Insert `a` into `l` before the first element it is `le`-related to
(insertion step of `sortBy`). -/
def insertSorted (le : α → α → Bool) (a : α) : List α → List α
  | [] => [a]
  | b :: bs => if le a b then a :: b :: bs else b :: insertSorted le a bs

/-- Insertion sort by a boolean relation, modelling SQL `ORDER BY` (SQLite
promises nothing about tie order, so any sort is a faithful model;
insertion sort keeps every definition kernel-computable). -/
def sortBy (le : α → α → Bool) : List α → List α
  | [] => []
  | a :: as' => insertSorted le a (sortBy le as')

/-- Milliseconds per day. -/
def msPerDay : Int := 86400000

/-- The window cutoff `subDays(now, days).getTime()`. -/
def cutoff (now : Int) (days : Nat) : Int := now - days * msPerDay

/-- `SUM(CASE WHEN timestamp >= c THEN 1 ELSE 0 END)` over the rows of one
group. -/
def winCount (l : List EntryRow) (keyP : EntryRow → Bool) (c : Int) : Nat :=
  l.countP (fun e => keyP e && decide (c ≤ e.timestamp))

/-- One row of `getUserAgentStats`. -/
structure UserAgentStats where
  userAgent : String
  requests1d : Nat
  requests7d : Nat
  requests30d : Nat
  isBot : Bool
deriving Repr, DecidableEq

/-- Embedding of `getUserAgentStats` (database.ts): group by
`(user_agent, is_bot)`, emit the three windowed counts, order by the 30-day
count descending, truncate to `limit`. -/
def getUserAgentStats (st : DBState) (now : Int) (limit : Nat) : List UserAgentStats :=
  let keys := (st.entries.map (fun e => (e.user_agent, e.is_bot))).dedup
  let rows := keys.map (fun k =>
    { userAgent := k.1
      isBot := k.2
      requests1d := winCount st.entries (fun e => (e.user_agent, e.is_bot) == k) (cutoff now 1)
      requests7d := winCount st.entries (fun e => (e.user_agent, e.is_bot) == k) (cutoff now 7)
      requests30d := winCount st.entries (fun e => (e.user_agent, e.is_bot) == k) (cutoff now 30)
      : UserAgentStats })
  (sortBy (fun a b => decide (b.requests30d ≤ a.requests30d)) rows).take limit

/-- One row of `getPageStats`. -/
structure PageStats where
  url : String
  requests1d : Nat
  requests7d : Nat
  requests30d : Nat
  uniqueIPs1d : Nat
  uniqueIPs7d : Nat
  uniqueIPs30d : Nat
  botRequests1d : Nat
  botRequests7d : Nat
  botRequests30d : Nat
  nonBotRequests1d : Nat
  nonBotRequests7d : Nat
  nonBotRequests30d : Nat
deriving Repr, DecidableEq

/-- `COUNT(DISTINCT CASE WHEN timestamp >= c THEN ip END)` over one group. -/
def winDistinctIPs (l : List EntryRow) (keyP : EntryRow → Bool) (c : Int) : Nat :=
  (((l.filter (fun e => keyP e && decide (c ≤ e.timestamp))).map EntryRow.ip).dedup).length

/-- Embedding of `getPageStats` (database.ts): group by `url`; per window
emit the total count, the distinct-IP count, and the counts restricted to
`is_bot = 1` and `is_bot = 0`; order by the 30-day count descending,
truncate to `limit`. -/
def getPageStats (st : DBState) (now : Int) (limit : Nat) : List PageStats :=
  let keys := (st.entries.map EntryRow.url).dedup
  let rows := keys.map (fun k =>
    let keyP := fun (e : EntryRow) => e.url == k
    { url := k
      requests1d := winCount st.entries keyP (cutoff now 1)
      requests7d := winCount st.entries keyP (cutoff now 7)
      requests30d := winCount st.entries keyP (cutoff now 30)
      uniqueIPs1d := winDistinctIPs st.entries keyP (cutoff now 1)
      uniqueIPs7d := winDistinctIPs st.entries keyP (cutoff now 7)
      uniqueIPs30d := winDistinctIPs st.entries keyP (cutoff now 30)
      botRequests1d := st.entries.countP (fun e => keyP e && decide (cutoff now 1 ≤ e.timestamp) && e.is_bot)
      botRequests7d := st.entries.countP (fun e => keyP e && decide (cutoff now 7 ≤ e.timestamp) && e.is_bot)
      botRequests30d := st.entries.countP (fun e => keyP e && decide (cutoff now 30 ≤ e.timestamp) && e.is_bot)
      nonBotRequests1d := st.entries.countP (fun e => keyP e && decide (cutoff now 1 ≤ e.timestamp) && !e.is_bot)
      nonBotRequests7d := st.entries.countP (fun e => keyP e && decide (cutoff now 7 ≤ e.timestamp) && !e.is_bot)
      nonBotRequests30d := st.entries.countP (fun e => keyP e && decide (cutoff now 30 ≤ e.timestamp) && !e.is_bot)
      : PageStats })
  (sortBy (fun a b => decide (b.requests30d ≤ a.requests30d)) rows).take limit

/-- One row of `getReferrerStats`. -/
structure ReferrerStats where
  referrer : String
  requests1d : Nat
  requests7d : Nat
  requests30d : Nat
deriving Repr, DecidableEq

/-- Embedding of `getReferrerStats` (database.ts): restrict to rows whose
referrer is neither empty nor `-` (the `WHERE` clause runs before the
grouping), group by referrer, order by the 30-day count descending. -/
def getReferrerStats (st : DBState) (now : Int) (limit : Nat) : List ReferrerStats :=
  let refRows := st.entries.filter (fun e => !(e.referrer == "") && !(e.referrer == "-"))
  let keys := (refRows.map EntryRow.referrer).dedup
  let rows := keys.map (fun k =>
    { referrer := k
      requests1d := winCount refRows (fun e => e.referrer == k) (cutoff now 1)
      requests7d := winCount refRows (fun e => e.referrer == k) (cutoff now 7)
      requests30d := winCount refRows (fun e => e.referrer == k) (cutoff now 30)
      : ReferrerStats })
  (sortBy (fun a b => decide (b.requests30d ≤ a.requests30d)) rows).take limit

/-- One row of `getErrorStats`. -/
structure ErrorStats where
  url : String
  statusCode : Int
  requests1d : Nat
  requests7d : Nat
  requests30d : Nat
deriving Repr, DecidableEq

/-- Embedding of `getErrorStats` (database.ts): restrict to
`status_code >= 400`, group by `(url, status_code)`, order by the 30-day
count descending. -/
def getErrorStats (st : DBState) (now : Int) (limit : Nat) : List ErrorStats :=
  let errRows := st.entries.filter (fun e => decide (400 ≤ e.status_code))
  let keys := (errRows.map (fun e => (e.url, e.status_code))).dedup
  let rows := keys.map (fun k =>
    { url := k.1
      statusCode := k.2
      requests1d := winCount errRows (fun e => (e.url, e.status_code) == k) (cutoff now 1)
      requests7d := winCount errRows (fun e => (e.url, e.status_code) == k) (cutoff now 7)
      requests30d := winCount errRows (fun e => (e.url, e.status_code) == k) (cutoff now 30)
      : ErrorStats })
  (sortBy (fun a b => decide (b.requests30d ≤ a.requests30d)) rows).take limit

/-- One row of `getBandwidthStats`. -/
structure BandwidthStats where
  date : String
  totalBytes : Int
  totalRequests : Nat
  averageResponseSize : Int
deriving Repr, DecidableEq

/-- `Math.round(x)` on the exact rational `num / den` with `den > 0`:
`floor(num/den + 1/2)`.  Floating-point evaluation of `AVG` is idealized as
exact rational arithmetic. -/
def roundHalfUp (num den : Int) : Int := (2 * num + den).ediv (2 * den)

/-- Embedding of `getBandwidthStats` (database.ts): group by `date_only`
(no window), emit total bytes, the request count and the rounded mean
response size, order by date descending (ISO dates compare bytewise =
chronologically), and return the most recent 30 days. -/
def getBandwidthStats (st : DBState) : List BandwidthStats :=
  let keys := (st.entries.map EntryRow.date_only).dedup
  let rows := keys.map (fun k =>
    let grp := st.entries.filter (fun e => e.date_only == k)
    { date := k
      totalBytes := (grp.map EntryRow.response_size).sum
      totalRequests := grp.length
      averageResponseSize :=
        if grp.length = 0 then 0
        else roundHalfUp ((grp.map EntryRow.response_size).sum) (grp.length : Int)
      : BandwidthStats })
  (sortBy (fun a b => decide (b.date < a.date)) rows).take 30

/-- One row of `getTopIPs`. -/
structure TopIPStats where
  ip : String
  requests1d : Nat
  requests7d : Nat
  requests30d : Nat
  isBot : Bool
deriving Repr, DecidableEq

/-- Embedding of `getTopIPs` (database.ts): group by `ip`, emit the three
windowed counts and `MAX(is_bot)` over *all* of the group's rows (true iff
any request from the IP was ever classified as a bot), order by the 30-day
count descending. -/
def getTopIPs (st : DBState) (now : Int) (limit : Nat) : List TopIPStats :=
  let keys := (st.entries.map EntryRow.ip).dedup
  let rows := keys.map (fun k =>
    { ip := k
      requests1d := winCount st.entries (fun e => e.ip == k) (cutoff now 1)
      requests7d := winCount st.entries (fun e => e.ip == k) (cutoff now 7)
      requests30d := winCount st.entries (fun e => e.ip == k) (cutoff now 30)
      isBot := (st.entries.filter (fun e => e.ip == k)).any (fun e => e.is_bot)
      : TopIPStats })
  (sortBy (fun a b => decide (b.requests30d ≤ a.requests30d)) rows).take limit

/-- `getLogCount` (database.ts): `SELECT COUNT(*) FROM log_entries`. -/
def getLogCount (st : DBState) : Nat := st.entries.length

/-- The summary block of `AnalysisResults` (analyzer.ts). -/
structure Summary where
  totalRequests : Nat
  totalUniqueIPs : Nat
  totalBandwidth : Int
  avgResponseSize : Int
  botTrafficPercentage : Int
  mostActiveDay : String
  topStatusCodes : List (Int × Nat)
deriving Repr, DecidableEq

/-- Embedding of `calculateSummary` (analyzer.ts).  `SUM`/`AVG` over an empty
table are `NULL`, coerced to 0 by `|| 0`; the bot percentage is 0 when the
table is empty; the most active day is `"N/A"` when there is no data; the
top status codes are the ten most frequent `(code, count)` pairs. -/
def calculateSummary (st : DBState) : Summary :=
  let totalRequests := getLogCount st
  { totalRequests := totalRequests
    totalUniqueIPs := ((st.entries.map EntryRow.ip).dedup).length
    totalBandwidth := (st.entries.map EntryRow.response_size).sum
    avgResponseSize :=
      if totalRequests = 0 then 0
      else roundHalfUp ((st.entries.map EntryRow.response_size).sum) (totalRequests : Int)
    botTrafficPercentage :=
      if totalRequests = 0 then 0
      else roundHalfUp ((st.entries.countP (fun e => e.is_bot) : Int) * 100) (totalRequests : Int)
    mostActiveDay :=
      let dayRows := ((st.entries.map EntryRow.date_only).dedup).map
        (fun d => (d, st.entries.countP (fun e => e.date_only == d)))
      match (sortBy (fun a b => decide (b.2 ≤ a.2)) dayRows).head? with
      | some p => p.1
      | none => "N/A"
    topStatusCodes :=
      let codeRows := ((st.entries.map EntryRow.status_code).dedup).map
        (fun c => (c, st.entries.countP (fun e => e.status_code == c)))
      ((sortBy (fun a b => decide (b.2 ≤ a.2)) codeRows).take 10) }

/-! ## Supporting lemmas -/

/-- An empty pattern occurs in every list. -/
lemma hasSub_nil (l : List Char) : hasSub [] l = true := by
  cases l <;> simp [hasSub, List.isPrefixOf]

/-- A prefix of `l` is a prefix of `l ++ v`. -/
lemma isPrefixOf_app (p l v : List Char) (h : p.isPrefixOf l = true) :
    p.isPrefixOf (l ++ v) = true := by
  induction p generalizing l with
  | nil => simp [List.isPrefixOf]
  | cons a as ih =>
    cases l with
    | nil => simp [List.isPrefixOf] at h
    | cons b bs =>
      simp only [List.cons_append, List.isPrefixOf, Bool.and_eq_true] at h ⊢
      exact ⟨h.1, ih bs h.2⟩

/-- An occurrence survives consing on the left. -/
lemma hasSub_cons (p : List Char) (c : Char) (l : List Char) (h : hasSub p l = true) :
    hasSub p (c :: l) = true := by
  simp only [hasSub, Bool.or_eq_true]
  exact Or.inr h

/-- An occurrence survives appending on the left. -/
lemma hasSub_append_left (p u m : List Char) (h : hasSub p m = true) :
    hasSub p (u ++ m) = true := by
  induction u with
  | nil => exact h
  | cons c cs ih => exact hasSub_cons p c (cs ++ m) ih

/-- An occurrence survives appending on the right. -/
lemma hasSub_append_right (p m v : List Char) (h : hasSub p m = true) :
    hasSub p (m ++ v) = true := by
  induction m with
  | nil =>
    simp only [hasSub, List.isEmpty_iff] at h
    subst h
    exact hasSub_nil v
  | cons c cs ih =>
    simp only [hasSub, Bool.or_eq_true] at h ⊢
    rcases h with h | h
    · exact Or.inl (isPrefixOf_app p (c :: cs) v h)
    · exact Or.inr (ih h)

/-- A count of rows matched by `p` splits into the rows matched with and
without a further condition `q`. -/
lemma countP_split_bool {α : Type} (p q : α → Bool) (l : List α) :
    l.countP p = l.countP (fun a => p a && q a) + l.countP (fun a => p a && !q a) := by
  induction l with
  | nil => rfl
  | cons a t ih =>
    simp only [List.countP_cons]
    cases hp : p a <;> cases hq : q a <;> simp [hp, hq, ih] <;> omega

/-- Inserting an element permutes consing it. -/
lemma insertSorted_perm {γ : Type} (le : γ → γ → Bool) (a : γ) (l : List γ) :
    (insertSorted le a l).Perm (a :: l) := by
  induction l with
  | nil => exact List.Perm.refl _
  | cons b bs ih =>
    simp only [insertSorted]
    split
    · exact List.Perm.refl _
    · exact List.Perm.trans (ih.cons b) (List.Perm.swap a b bs)

/-- `sortBy` permutes its input. -/
lemma sortBy_perm {γ : Type} (le : γ → γ → Bool) (l : List γ) :
    (sortBy le l).Perm l := by
  induction l with
  | nil => exact List.Perm.refl _
  | cons a as' ih =>
    exact List.Perm.trans (insertSorted_perm le a (sortBy le as')) (ih.cons a)

/-- Membership in `ORDER BY … LIMIT …` output implies membership in the
grouped rows. -/
lemma mem_sorted_take {γ : Type} (rows : List γ) (le : γ → γ → Bool) (n : Nat) (x : γ)
    (hx : x ∈ (sortBy le rows).take n) : x ∈ rows :=
  ((sortBy_perm le rows).mem_iff).1 (List.mem_of_mem_take hx)

/-- The three window cutoffs are monotone: a wider window has an earlier
cutoff. -/
lemma cutoff_mono (now : Int) {a b : Nat} (h : b ≤ a) : cutoff now a ≤ cutoff now b := by
  unfold cutoff msPerDay
  have : (b : Int) * 86400000 ≤ (a : Int) * 86400000 := by
    apply mul_le_mul_of_nonneg_right _ (by norm_num)
    exact_mod_cast h
  omega

/-- A windowed count is antitone in the cutoff. -/
lemma winCount_mono (l : List EntryRow) (keyP : EntryRow → Bool) {c c' : Int}
    (h : c ≤ c') : winCount l keyP c' ≤ winCount l keyP c := by
  apply List.countP_mono_left
  intro e _ he
  simp only [Bool.and_eq_true, decide_eq_true_eq] at he ⊢
  exact ⟨he.1, le_trans h he.2⟩

/-- A `==`-keyed count coincides with the `decide`-keyed count. -/
lemma countP_key_eq {α β : Type} [BEq β] [LawfulBEq β] [DecidableEq β]
    (f : α → β) (k : β) (l : List α) :
    l.countP (fun a => f a == k) = l.countP (fun a => decide (f a = k)) := by
  apply List.countP_congr
  intro a _
  simp

/-- Summing, over the deduplicated keys, the number of rows carrying each
key recovers the number of rows (the `GROUP BY` fibers partition the
table). -/
lemma sum_fiber_counts {α β : Type} [DecidableEq β] (f : α → β) (l : List α) :
    (((l.map f).dedup).map (fun k => l.countP (fun a => decide (f a = k)))).sum = l.length := by
  have h1 := List.sum_map_count_dedup_eq_length (l.map f)
  rw [List.length_map] at h1
  rw [← h1]
  have h2 : ∀ k, (l.map f).count k = l.countP (fun a => decide (f a = k)) := by
    intro k
    rw [List.count_eq_countP k (l.map f), List.countP_map]
    apply List.countP_congr
    intro a _
    simp
  exact congrArg List.sum (List.map_congr_left (fun k _ => (h2 k).symm))

/-- The `UPDATE hosts SET updated_at = ? WHERE id = ?` row transformer leaves
every hostname unchanged. -/
lemma upd_hostname (hid : Nat) (now : Int) (r : HostRow) :
    (if r.id = hid then { r with updated_at := now } else r).hostname = r.hostname := by
  split <;> rfl

/-- Applying the `updated_at` update for a found row to the whole table moves
`find?` through: the first row matching the hostname is the found row with
its `updated_at` refreshed. -/
lemma find?_update_map (hosts : List HostRow) (hostname : String) (now : Int) (h : HostRow)
    (hfind : hosts.find? (fun r => r.hostname == hostname) = some h) :
    (hosts.map (fun r => if r.id = h.id then { r with updated_at := now } else r)).find?
      (fun r => r.hostname == hostname) = some { h with updated_at := now } := by
  rw [List.find?_map]
  have hpred : ((fun r : HostRow => r.hostname == hostname) ∘
      (fun r => if r.id = h.id then { r with updated_at := now } else r)) =
      (fun r : HostRow => r.hostname == hostname) := by
    funext r
    simp only [Function.comp_apply]
    rw [upd_hostname]
  rw [hpred, hfind, Option.map_some', if_pos rfl]

/-- After `getOrCreateHost`, a row with the requested hostname exists and its
`updated_at` is the call's `now` (both in the update and the insert
branch). -/
lemma getOrCreateHost_find (st : DBState) (hostname : String) (now : Int) :
    ∃ r, (getOrCreateHost st hostname now).2.hosts.find?
        (fun h => h.hostname == hostname) = some r ∧ r.updated_at = now := by
  unfold getOrCreateHost
  cases hfind : st.hosts.find? (fun h => h.hostname == hostname) with
  | some h =>
    exact ⟨{ h with updated_at := now }, find?_update_map st.hosts hostname now h hfind, rfl⟩
  | none =>
    refine ⟨{ id := st.nextHostId, hostname := hostname, created_at := now,
              updated_at := now }, ?_, rfl⟩
    rw [List.find?_append, hfind]
    simp [List.find?]

/-- In the update branch, the resulting `hosts` table is the input table with
the found row's `updated_at` refreshed. -/
lemma getOrCreateHost_found_shape (st : DBState) (hostname : String) (now : Int) (h : HostRow)
    (hfind : st.hosts.find? (fun r => r.hostname == hostname) = some h) :
    (getOrCreateHost st hostname now).2.hosts =
      st.hosts.map (fun r => if r.id = h.id then { r with updated_at := now } else r) := by
  unfold getOrCreateHost
  rw [hfind]

/-- `getOrCreateHost` preserves uniqueness of hostnames: the update branch
leaves all hostnames unchanged, and the insert branch appends a hostname the
`find?` just proved absent. -/
lemma getOrCreateHost_hostnames_nodup (st : DBState) (hostname : String) (now : Int)
    (hnd : (st.hosts.map HostRow.hostname).Nodup) :
    ((getOrCreateHost st hostname now).2.hosts.map HostRow.hostname).Nodup := by
  unfold getOrCreateHost
  cases hfind : st.hosts.find? (fun r => r.hostname == hostname) with
  | some h =>
    simp only
    rw [List.map_map]
    have heq : (HostRow.hostname ∘ fun r =>
        if r.id = h.id then { r with updated_at := now } else r) = HostRow.hostname :=
      funext (fun r => upd_hostname h.id now r)
    rw [heq]
    exact hnd
  | none =>
    simp only
    rw [List.map_append, List.nodup_append]
    refine ⟨hnd, by simp, ?_⟩
    intro a ha hmem
    simp only [List.map_cons, List.map_nil, List.mem_singleton] at hmem
    subst hmem
    obtain ⟨r, hr, hrh⟩ := List.mem_map.1 ha
    have hnot := List.find?_eq_none.1 hfind r hr
    rw [hrh] at hnot
    simp at hnot

/-- Resolving or creating a host never touches the `log_entries` table. -/
lemma getOrCreateHost_entries (st : DBState) (hostname : String) (now : Int) :
    (getOrCreateHost st hostname now).2.entries = st.entries := by
  unfold getOrCreateHost
  split <;> rfl

/-! ## Concrete fixtures for the instances below -/

/-- A minimal persisted entry (timestamp at the epoch, not a bot). -/
def sampleEntry : EntryRow :=
  { host_id := 1, ip := "1.1.1.1", timestamp := 0, method := "GET", url := "/",
    protocol := "HTTP/1.1", status_code := 200, response_size := 0, referrer := "",
    user_agent := "ua", forwarded_for := none, is_bot := false,
    date_only := "1970-01-01" }

/-- A store holding exactly `sampleEntry`. -/
def sampleState : DBState := { hosts := [], entries := [sampleEntry], nextHostId := 1 }

/-- A store whose eleven entries carry eleven distinct status codes. -/
def elevenCodes : DBState :=
  { hosts := [], nextHostId := 1,
    entries := (List.range 11).map (fun i => { sampleEntry with status_code := 400 + i }) }

/-- A minimal parsed log entry. -/
def sampleLogEntry : LogEntry :=
  { ip := "1.2.3.4", timestamp := 1757181683000, method := "GET", url := "/",
    protocol := "HTTP/1.1", statusCode := 200, responseSize := 0, referrer := "",
    userAgent := "Zapier", forwardedFor := none }

/-! ## Claim C1 — timestamp normalization (code bug) -/

/-- C1.  The spec requires `06/Sep/2025:11:01:23 -0700` to normalize to
2025-09-06T18:01:23.000Z (epoch 1757181683000) independently of the host
machine's timezone.  The source builds the calendar fields with the
host-local `new Date(y, m, d, h, mi, s)` constructor, so the result shifts
with the host offset: a host at UTC (offset 0 minutes) gets the specified
instant, but a host at UTC+01:00 (offset 60 minutes) gets
2025-09-06T17:01:23.000Z — the claimed host-independence fails. -/
theorem parseNginxTimestamp_host_tz_dependent :
    parseNginxTimestamp 0 "06/Sep/2025:11:01:23 -0700" = some 1757181683000 ∧
    parseNginxTimestamp 60 "06/Sep/2025:11:01:23 -0700" = some 1757178083000 ∧
    parseNginxTimestamp 60 "06/Sep/2025:11:01:23 -0700" ≠
      parseNginxTimestamp 0 "06/Sep/2025:11:01:23 -0700" :=
  ⟨by decide, by decide, by decide⟩

/-! ## Claim C8 — the bot classifier -/

/-- C8.  The classifier is a pure function that returns true on `Zapier`
(the `/zapier/i` rule), true on every string containing `AhrefsBot` or
`Amazonbot` (each contains `bot` case-insensitively, matching the `/bot/i`
rule), false on a typical browser user agent containing `Mozilla` and no bot
token, and false on the empty string. -/
theorem isBot_classification :
    isBot "Zapier" = true ∧
    (∀ u v : String, isBot (u ++ "AhrefsBot" ++ v) = true) ∧
    (∀ u v : String, isBot (u ++ "Amazonbot" ++ v) = true) ∧
    isBot "Mozilla/5.0 (Windows NT 10.0; Win64; x64) AppleWebKit/537.36 (KHTML, like Gecko) Chrome/120.0.0.0 Safari/537.36" = false ∧
    isBot "" = false := by
  have hbot : ∀ (m : String), hasSub ("bot".data.map Char.toLower)
      (m.data.map Char.toLower) = true → ∀ u v : String, isBot (u ++ m ++ v) = true := by
    intro m hm u v
    apply List.any_eq_true.2
    refine ⟨"bot", by decide, ?_⟩
    unfold testsCI
    rw [String.data_append, String.data_append, List.map_append, List.map_append]
    exact hasSub_append_right _ _ _ (hasSub_append_left _ _ _ hm)
  refine ⟨by decide, hbot "AhrefsBot" (by decide), hbot "Amazonbot" (by decide),
    by decide, by decide⟩

/-! ## Claim C2 — transactional bulk insert (corrected) -/

/-- C2 counterexample.  A storage-level failure mid-batch rolls the entry
inserts back, but `getOrCreateHost` already committed before the
transaction: starting from the fresh store, a failing load for
`example.com` leaves a host row behind, so the prior persisted state is
*not* left unchanged. -/
theorem insertLogEntries_failure_changes_hosts :
    (insertLogEntriesWithFailure initialState [sampleLogEntry] "example.com" 5
      (some 0)).2 ≠ initialState := by decide

/-- C2 amended.  The bulk insert is atomic for the `log_entries` table: on
success all rows for the load appear, and on a storage-level failure
mid-batch none do — but the host resolution runs before the transaction, so
the `hosts` table keeps the created/updated host row even when the batch
fails. -/
theorem insertLogEntries_transaction_boundary (st : DBState) (entries : List LogEntry)
    (hostname : String) (now : Int) :
    (∀ k : Nat,
      (insertLogEntriesWithFailure st entries hostname now (some k)).1 = false ∧
      (insertLogEntriesWithFailure st entries hostname now (some k)).2.entries = st.entries ∧
      (insertLogEntriesWithFailure st entries hostname now (some k)).2.hosts =
        (getOrCreateHost st hostname now).2.hosts) ∧
    insertLogEntriesWithFailure st entries hostname now none =
      (true, insertLogEntries st entries hostname now) ∧
    (insertLogEntries st entries hostname now).entries =
      st.entries ++ entries.map (entryToRow (getOrCreateHost st hostname now).1) := by
  refine ⟨fun k => ⟨rfl, ?_, rfl⟩, rfl, ?_⟩
  · exact getOrCreateHost_entries st hostname now
  · show (getOrCreateHost st hostname now).2.entries ++ _ = _
    rw [getOrCreateHost_entries]

/-! ## Claim C3 — hostname validation order (corrected) -/

/-- C3 counterexample.  When the designated file does not exist, the
`existsSync` check throws first: a load with a blank hostname and a missing
file fails with the file-not-found condition, not the `InvalidHost`
("hostname required") condition the claim promises. -/
theorem loadLogFile_missing_file_wins :
    (loadLogFile 0 (fun _ => none) initialState "access.log" "" 0).1 =
      Except.error LoadError.fileNotFound ∧
    LoadError.fileNotFound ≠ LoadError.invalidHost := ⟨rfl, by decide⟩

/-- C3 amended.  When the file exists, a hostname that is empty or
whitespace-only after trimming fails the load with the `InvalidHost`
condition and leaves the store unchanged; when the file does not exist the
load fails with the file-not-found condition (for any hostname, blank or
not) and the hostname check is never reached. -/
theorem loadLogFile_blank_hostname (hostTZmin : Int) (fs : String → Option String)
    (st : DBState) (filePath hostname : String) (now : Int) :
    ((∃ c, fs filePath = some c) → (trimJS hostname.data).isEmpty = true →
      loadLogFile hostTZmin fs st filePath hostname now = (.error .invalidHost, st)) ∧
    (fs filePath = none →
      loadLogFile hostTZmin fs st filePath hostname now = (.error .fileNotFound, st)) := by
  constructor
  · rintro ⟨c, hc⟩ hb
    unfold loadLogFile
    rw [hc]
    simp [hb]
  · intro h
    unfold loadLogFile
    rw [h]

/-- Witness for C3 amended: a whitespace-only hostname with an existing file
yields `InvalidHost` and the unchanged fresh store. -/
theorem loadLogFile_blank_hostname_witness :
    loadLogFile 0 (fun _ => some "x") initialState "access.log" "   " 7 =
      (.error .invalidHost, initialState) :=
  (loadLogFile_blank_hostname 0 (fun _ => some "x") initialState "access.log" "   " 7).1
    ⟨"x", rfl⟩ (by decide)

/-! ## Claim C10 — empty parse result aborts before any store access -/

/-- C10.  For an existing file and a valid hostname, when the content parses
to zero valid entries (empty, blank-only, or fully corrupt) the load fails
with the empty-result condition and the store is completely unchanged: no
host row is created or updated and no entry rows are inserted (the throw
happens before `insertLogEntries` and thus before `getOrCreateHost`). -/
theorem loadLogFile_empty_result (hostTZmin : Int) (fs : String → Option String)
    (st : DBState) (filePath hostname : String) (now : Int) (content : String)
    (hc : fs filePath = some content)
    (hh : (trimJS hostname.data).isEmpty = false)
    (hp : parseLogFile hostTZmin content = []) :
    loadLogFile hostTZmin fs st filePath hostname now = (.error .emptyResult, st) := by
  unfold loadLogFile
  rw [hc]
  simp [hh, hp]

/-- Witness for C10: a file of one fully corrupt line parses to no entries,
and the load on the fresh store fails with the empty-result condition,
leaving the store untouched. -/
theorem loadLogFile_empty_result_witness :
    loadLogFile 0 (fun _ => some "not a log line") initialState "a.log" "h" 7 =
      (.error .emptyResult, initialState) :=
  loadLogFile_empty_result 0 (fun _ => some "not a log line") initialState "a.log" "h" 7
    "not a log line" rfl (by decide) (by decide)

/-! ## Claim C9 — repeated loads update, never duplicate, the host row -/

/-- C9.  Starting from any store with unique hostnames, resolving a hostname
at time `t1` and again at a strictly later time `t2` leaves a single row for
that hostname whose `updated_at` after the second call is `t2`, strictly
later than the `t1` it carried after the first call; the second call adds no
row, and hostnames remain globally unique. -/
theorem getOrCreateHost_second_load (st : DBState) (hostname : String) (t1 t2 : Int)
    (hnd : (st.hosts.map HostRow.hostname).Nodup) (hlt : t1 < t2) :
    ∃ r1 r2 : HostRow,
      (getOrCreateHost st hostname t1).2.hosts.find?
        (fun r => r.hostname == hostname) = some r1 ∧
      (getOrCreateHost (getOrCreateHost st hostname t1).2 hostname t2).2.hosts.find?
        (fun r => r.hostname == hostname) = some r2 ∧
      r1.updated_at = t1 ∧ r2.updated_at = t2 ∧ r1.updated_at < r2.updated_at ∧
      (getOrCreateHost (getOrCreateHost st hostname t1).2 hostname t2).2.hosts.length =
        (getOrCreateHost st hostname t1).2.hosts.length ∧
      ((getOrCreateHost (getOrCreateHost st hostname t1).2 hostname t2).2.hosts.map
        HostRow.hostname).Nodup := by
  obtain ⟨r1, hr1, hu1⟩ := getOrCreateHost_find st hostname t1
  have hshape := getOrCreateHost_found_shape (getOrCreateHost st hostname t1).2 hostname t2 r1 hr1
  refine ⟨r1, { r1 with updated_at := t2 }, hr1, ?_, hu1, rfl, by rw [hu1]; exact hlt, ?_, ?_⟩
  · rw [hshape]
    exact find?_update_map _ hostname t2 r1 hr1
  · rw [hshape, List.length_map]
  · exact getOrCreateHost_hostnames_nodup _ hostname t2
      (getOrCreateHost_hostnames_nodup st hostname t1 hnd)

/-- Witness for C9: the fresh store, hostname `example.com`, times 1 and 2. -/
theorem getOrCreateHost_second_load_witness :
    ∃ r1 r2 : HostRow,
      (getOrCreateHost initialState "example.com" 1).2.hosts.find?
        (fun r => r.hostname == "example.com") = some r1 ∧
      (getOrCreateHost (getOrCreateHost initialState "example.com" 1).2
        "example.com" 2).2.hosts.find? (fun r => r.hostname == "example.com") = some r2 ∧
      r1.updated_at = 1 ∧ r2.updated_at = 2 ∧ r1.updated_at < r2.updated_at ∧
      (getOrCreateHost (getOrCreateHost initialState "example.com" 1).2
        "example.com" 2).2.hosts.length =
        (getOrCreateHost initialState "example.com" 1).2.hosts.length ∧
      ((getOrCreateHost (getOrCreateHost initialState "example.com" 1).2
        "example.com" 2).2.hosts.map HostRow.hostname).Nodup :=
  getOrCreateHost_second_load initialState "example.com" 1 2 (by decide) (by decide)

/-! ## Claims C4 / C5 — sum reconciliation (corrected) -/

/-- `totalRequests` of the summary is the number of `log_entries` rows. -/
lemma summary_totalRequests (st : DBState) :
    (calculateSummary st).totalRequests = st.entries.length := rfl

/-- A windowed count over rows that all fall inside the window is the plain
group count. -/
lemma winCount_all_in (l : List EntryRow) (keyP : EntryRow → Bool) (c : Int)
    (hwin : ∀ e ∈ l, c ≤ e.timestamp) :
    winCount l keyP c = l.countP keyP := by
  unfold winCount
  apply List.countP_congr
  intro e he
  rw [decide_eq_true (hwin e he), Bool.and_true]

/-- Summing a projection over a sorted-and-truncated row list, when the
truncation keeps everything, is summing a pointwise value over the keys. -/
lemma sum_proj_sorted_take {β γ : Type} (keys : List β) (mk : β → γ) (proj : γ → Nat)
    (g : β → Nat) (le : γ → γ → Bool) (n : Nat) (h : keys.length ≤ n)
    (hpt : ∀ k ∈ keys, proj (mk k) = g k) :
    (((sortBy le (keys.map mk)).take n).map proj).sum = (keys.map g).sum := by
  have hlen : (sortBy le (keys.map mk)).length ≤ n := by
    rw [(sortBy_perm le _).length_eq, List.length_map]
    exact h
  rw [List.take_of_length_le hlen, ((sortBy_perm le (keys.map mk)).map proj).sum_eq,
    List.map_map]
  exact congrArg List.sum (List.map_congr_left (fun k hk => hpt k hk))

/-- C4 counterexample.  The user-agent query only counts the trailing 30-day
window while `summary.totalRequests` counts the whole table: with a single
entry at the epoch and a query time far in the future, the user-agent
30-day counts sum to 0 while `totalRequests` is 1.  The conjunction of the
two claimed reconciliations therefore fails for this store and query
time. -/
theorem sum_requests_reconcile_cex :
    ¬ ((((getUserAgentStats sampleState 5000000000000 50).map
          UserAgentStats.requests30d).sum = (calculateSummary sampleState).totalRequests) ∧
       (((getBandwidthStats sampleState).map BandwidthStats.totalRequests).sum =
          (calculateSummary sampleState).totalRequests)) := by decide

/-- C4 amended.  When every stored entry lies inside the 30-day window at
query time, the number of (user-agent, bot) groups does not exceed the
user-agent limit, and there are at most 30 distinct dates, the user-agent
30-day counts and the per-day bandwidth request counts each sum to
`summary.totalRequests`. -/
theorem sum_requests_reconcile (st : DBState) (now : Int) (uaLimit : Nat)
    (hwin : ∀ e ∈ st.entries, cutoff now 30 ≤ e.timestamp)
    (hua : ((st.entries.map (fun e => (e.user_agent, e.is_bot))).dedup).length ≤ uaLimit)
    (hdays : ((st.entries.map EntryRow.date_only).dedup).length ≤ 30) :
    (((getUserAgentStats st now uaLimit).map UserAgentStats.requests30d).sum =
      (calculateSummary st).totalRequests) ∧
    (((getBandwidthStats st).map BandwidthStats.totalRequests).sum =
      (calculateSummary st).totalRequests) := by
  rw [summary_totalRequests]
  constructor
  · have hstep : ∀ k : String × Bool,
        winCount st.entries (fun e => (e.user_agent, e.is_bot) == k) (cutoff now 30) =
        st.entries.countP (fun e => decide ((e.user_agent, e.is_bot) = k)) := by
      intro k
      rw [winCount_all_in st.entries _ _ hwin]
      exact countP_key_eq (fun e => (e.user_agent, e.is_bot)) k st.entries
    simp only [getUserAgentStats]
    exact (sum_proj_sorted_take _ _ _
      (fun k => st.entries.countP (fun e => decide ((e.user_agent, e.is_bot) = k)))
      _ _ hua (fun k _ => hstep k)).trans
      (sum_fiber_counts (fun e => (e.user_agent, e.is_bot)) st.entries)
  · have hstep : ∀ k : String,
        (st.entries.filter (fun e => e.date_only == k)).length =
        st.entries.countP (fun e => decide (e.date_only = k)) := by
      intro k
      rw [← List.countP_eq_length_filter]
      exact countP_key_eq EntryRow.date_only k st.entries
    simp only [getBandwidthStats]
    exact (sum_proj_sorted_take ((st.entries.map EntryRow.date_only).dedup)
      (fun k =>
        let grp := st.entries.filter (fun e => e.date_only == k)
        { date := k
          totalBytes := (grp.map EntryRow.response_size).sum
          totalRequests := grp.length
          averageResponseSize :=
            if grp.length = 0 then 0
            else roundHalfUp ((grp.map EntryRow.response_size).sum) (grp.length : Int)
          : BandwidthStats })
      BandwidthStats.totalRequests
      (fun k => st.entries.countP (fun e => decide (e.date_only = k)))
      (fun a b => decide (b.date < a.date)) 30 hdays (fun k _ => hstep k)).trans
      (sum_fiber_counts EntryRow.date_only st.entries)

/-- Witness for C4 amended: the one-entry store at query time 0 satisfies
all three side conditions and both sums equal `totalRequests`. -/
theorem sum_requests_reconcile_witness :
    (((getUserAgentStats sampleState 0 50).map UserAgentStats.requests30d).sum =
      (calculateSummary sampleState).totalRequests) ∧
    (((getBandwidthStats sampleState).map BandwidthStats.totalRequests).sum =
      (calculateSummary sampleState).totalRequests) :=
  sum_requests_reconcile sampleState 0 50 (by decide) (by decide) (by decide)

/-- C5 counterexample.  `topStatusCodes` is truncated to the ten most
frequent codes: with eleven distinct status codes of one request each, the
ten reported counts sum to 10 while `totalRequests` is 11. -/
theorem topStatusCodes_sum_cex :
    ¬ (((calculateSummary elevenCodes).topStatusCodes.map Prod.snd).sum =
        (calculateSummary elevenCodes).totalRequests) := by decide

/-- C5 amended.  When at most ten distinct status codes occur, the counts of
`summary.topStatusCodes` sum to `summary.totalRequests` (the status-code
grouping carries no time window, so only the LIMIT can drop mass). -/
theorem topStatusCodes_sum (st : DBState)
    (h : ((st.entries.map EntryRow.status_code).dedup).length ≤ 10) :
    ((calculateSummary st).topStatusCodes.map Prod.snd).sum =
      (calculateSummary st).totalRequests := by
  rw [summary_totalRequests]
  have hstep : ∀ k : Int,
      st.entries.countP (fun e => e.status_code == k) =
      st.entries.countP (fun e => decide (e.status_code = k)) :=
    fun k => countP_key_eq EntryRow.status_code k st.entries
  show (((sortBy (fun a b => decide (b.2 ≤ a.2))
      (((st.entries.map EntryRow.status_code).dedup).map
        (fun c => (c, st.entries.countP (fun e => e.status_code == c))))).take 10).map
      Prod.snd).sum = st.entries.length
  exact (sum_proj_sorted_take _ _ _
    (fun k => st.entries.countP (fun e => decide (e.status_code = k)))
    _ _ h (fun k _ => hstep k)).trans
    (sum_fiber_counts EntryRow.status_code st.entries)

/-- Witness for C5 amended: the one-entry store has one distinct status code
and its single reported count equals `totalRequests`. -/
theorem topStatusCodes_sum_witness :
    ((calculateSummary sampleState).topStatusCodes.map Prod.snd).sum =
      (calculateSummary sampleState).totalRequests :=
  topStatusCodes_sum sampleState (by decide)

/-! ## Claim C6 — bot + non-bot = total per path and window -/

/-- C6.  Every row of the page stats query satisfies, for each of the three
windows, `requests = botRequests + nonBotRequests`: the stored `is_bot`
flag is boolean, so the two restricted counts partition the windowed
count. -/
theorem pageStats_bot_partition (st : DBState) (now : Int) (limit : Nat)
    (row : PageStats) (hrow : row ∈ getPageStats st now limit) :
    row.requests1d = row.botRequests1d + row.nonBotRequests1d ∧
    row.requests7d = row.botRequests7d + row.nonBotRequests7d ∧
    row.requests30d = row.botRequests30d + row.nonBotRequests30d := by
  simp only [getPageStats] at hrow
  obtain ⟨k, hk, rfl⟩ := List.mem_map.1 (mem_sorted_take _ _ _ _ hrow)
  exact ⟨countP_split_bool _ _ _, countP_split_bool _ _ _, countP_split_bool _ _ _⟩

/-- The single row the page stats query returns on `sampleState`. -/
def samplePageRow : PageStats := ⟨"/", 1, 1, 1, 1, 1, 1, 0, 0, 0, 1, 1, 1⟩

/-- Witness for C6: on the one-entry store the returned row satisfies the
partition in all three windows. -/
theorem pageStats_bot_partition_witness :
    samplePageRow.requests1d = samplePageRow.botRequests1d + samplePageRow.nonBotRequests1d ∧
    samplePageRow.requests7d = samplePageRow.botRequests7d + samplePageRow.nonBotRequests7d ∧
    samplePageRow.requests30d = samplePageRow.botRequests30d + samplePageRow.nonBotRequests30d :=
  pageStats_bot_partition sampleState 0 1 samplePageRow (by decide)

/-! ## Claim C7 — nested windows -/

/-- C7.  In every windowed report — user agents, pages, referrers, errors,
top IPs — each row's 1-day count is at most its 7-day count, which is at
most its 30-day count, because the three cutoffs are nested. -/
theorem windowed_counts_nested (st : DBState) (now : Int) (limit : Nat) :
    (∀ r ∈ getUserAgentStats st now limit,
      r.requests1d ≤ r.requests7d ∧ r.requests7d ≤ r.requests30d) ∧
    (∀ r ∈ getPageStats st now limit,
      r.requests1d ≤ r.requests7d ∧ r.requests7d ≤ r.requests30d) ∧
    (∀ r ∈ getReferrerStats st now limit,
      r.requests1d ≤ r.requests7d ∧ r.requests7d ≤ r.requests30d) ∧
    (∀ r ∈ getErrorStats st now limit,
      r.requests1d ≤ r.requests7d ∧ r.requests7d ≤ r.requests30d) ∧
    (∀ r ∈ getTopIPs st now limit,
      r.requests1d ≤ r.requests7d ∧ r.requests7d ≤ r.requests30d) := by
  have h17 : cutoff now 7 ≤ cutoff now 1 := cutoff_mono now (by norm_num)
  have h730 : cutoff now 30 ≤ cutoff now 7 := cutoff_mono now (by norm_num)
  refine ⟨fun r hr => ?_, fun r hr => ?_, fun r hr => ?_, fun r hr => ?_, fun r hr => ?_⟩
  · simp only [getUserAgentStats] at hr
    obtain ⟨k, hk, rfl⟩ := List.mem_map.1 (mem_sorted_take _ _ _ _ hr)
    exact ⟨winCount_mono _ _ h17, winCount_mono _ _ h730⟩
  · simp only [getPageStats] at hr
    obtain ⟨k, hk, rfl⟩ := List.mem_map.1 (mem_sorted_take _ _ _ _ hr)
    exact ⟨winCount_mono _ _ h17, winCount_mono _ _ h730⟩
  · simp only [getReferrerStats] at hr
    obtain ⟨k, hk, rfl⟩ := List.mem_map.1 (mem_sorted_take _ _ _ _ hr)
    exact ⟨winCount_mono _ _ h17, winCount_mono _ _ h730⟩
  · simp only [getErrorStats] at hr
    obtain ⟨k, hk, rfl⟩ := List.mem_map.1 (mem_sorted_take _ _ _ _ hr)
    exact ⟨winCount_mono _ _ h17, winCount_mono _ _ h730⟩
  · simp only [getTopIPs] at hr
    obtain ⟨k, hk, rfl⟩ := List.mem_map.1 (mem_sorted_take _ _ _ _ hr)
    exact ⟨winCount_mono _ _ h17, winCount_mono _ _ h730⟩

/-- The single row the user-agent query returns on `sampleState`. -/
def sampleUARow : UserAgentStats := ⟨"ua", 1, 1, 1, false⟩

/-- Witness for C7: on the one-entry store the returned user-agent row has
nested counts. -/
theorem windowed_counts_nested_witness :
    sampleUARow.requests1d ≤ sampleUARow.requests7d ∧
    sampleUARow.requests7d ≤ sampleUARow.requests30d :=
  (windowed_counts_nested sampleState 0 50).1 sampleUARow (by decide)

end LogInsights
